import Mathlib

/-!
Verification of the exchange-rate / stock-price pipeline
(`metrics_calculation.py`, `download.py`, `Final_project/database.py`).

Modelling conventions used throughout this development:

* Calendar dates are modelled as integers (`Date := Int`): the source parses
  `'YYYY-MM-DD'` strings with `strptime` into `datetime.date` values, whose
  only operations used here are equality, ordering and adding whole days, all
  of which integers support faithfully.
* Python numbers (`float` results of the arithmetic) are modelled as exact
  rationals `ℚ`; the single square root in the Pearson formula is modelled as
  `Real.sqrt` over `ℝ`.
* Python's `/`, which raises `ZeroDivisionError` on a zero divisor, is
  modelled by `pydiv` returning `Except String ℚ`; functions whose loop bodies
  divide are `Except`-valued, an `.error` value meaning the Python function
  raises at that point.
-/

abbrev Date := Int

deriving instance DecidableEq for Except

/-- Python division on rationals: `a / b` raises `ZeroDivisionError` when
`b = 0`, otherwise produces the exact quotient. -/
def pydiv (a b : ℚ) : Except String ℚ :=
  if b = 0 then .error "ZeroDivisionError" else .ok (a / b)

/-- Models `metrics_calculation.calculate_exchange_rate_changes`, applied to the
date-ordered `(date, rate)` projection of the rows returned by
`get_exchange_rate` (`data[i][0]` is the date, `data[i][3]` the rate).  The
Python loop runs `i` over `range(len(data) - 1)` and appends
`(data[i+1][0], (data[i+1][3] - data[i][3]) * 100 / data[i][3])`. -/
def calculate_exchange_rate_changes : List (Date × ℚ) → Except String (List (Date × ℚ))
  | [] => .ok []
  | [_] => .ok []
  | (_, v0) :: (d1, v1) :: rest =>
    match pydiv ((v1 - v0) * 100) v0 with
    | .error e => .error e
    | .ok c =>
      match calculate_exchange_rate_changes ((d1, v1) :: rest) with
      | .error e => .error e
      | .ok cs => .ok ((d1, c) :: cs)

/-- Models `metrics_calculation.calculate_stock_price_changes`, applied to the
date-ordered `(date, close)` projection of the rows returned by
`get_stock_data` (`data[i][0]` is the date, `data[i][4]` the close price).
The loop body is identical to the exchange-rate one. -/
def calculate_stock_price_changes : List (Date × ℚ) → Except String (List (Date × ℚ))
  | [] => .ok []
  | [_] => .ok []
  | (_, v0) :: (d1, v1) :: rest =>
    match pydiv ((v1 - v0) * 100) v0 with
    | .error e => .error e
    | .ok c =>
      match calculate_stock_price_changes ((d1, v1) :: rest) with
      | .error e => .error e
      | .ok cs => .ok ((d1, c) :: cs)

lemma calculate_stock_eq_exchange :
    ∀ data : List (Date × ℚ),
      calculate_stock_price_changes data = calculate_exchange_rate_changes data
  | [] => rfl
  | [_] => rfl
  | (d0, v0) :: (d1, v1) :: rest => by
    rw [calculate_stock_price_changes, calculate_exchange_rate_changes,
      calculate_stock_eq_exchange ((d1, v1) :: rest)]

/-- The closed form of the day-over-day change list: entry `i` (for
`i < data.length - 1`) pairs the date of observation `i+1` with
`(v[i+1] - v[i]) / v[i] * 100`. -/
def changesClosedForm (data : List (Date × ℚ)) : List (Date × ℚ) :=
  (List.range (data.length - 1)).map fun i =>
    ((data.getD (i + 1) (0, 0)).1,
     ((data.getD (i + 1) (0, 0)).2 - (data.getD i (0, 0)).2) / (data.getD i (0, 0)).2 * 100)

lemma changesClosedForm_nil : changesClosedForm [] = [] := rfl

lemma changesClosedForm_single (a : Date × ℚ) : changesClosedForm [a] = [] := rfl

lemma changesClosedForm_cons_cons (a b : Date × ℚ) (rest : List (Date × ℚ)) :
    changesClosedForm (a :: b :: rest) =
      (b.1, (b.2 - a.2) / a.2 * 100) :: changesClosedForm (b :: rest) := by
  unfold changesClosedForm
  simp only [List.length_cons, Nat.add_sub_cancel, List.range_succ_eq_map, List.map_cons,
    List.map_map]
  rfl

lemma calculate_exchange_rate_changes_eq :
    ∀ data : List (Date × ℚ), (∀ p ∈ data.dropLast, p.2 ≠ 0) →
      calculate_exchange_rate_changes data = .ok (changesClosedForm data)
  | [], _ => rfl
  | [a], _ => rfl
  | (d0, v0) :: (d1, v1) :: rest, h => by
    have hv0 : v0 ≠ 0 := by
      have : (d0, v0) ∈ ((d0, v0) :: (d1, v1) :: rest).dropLast := by
        simp [List.dropLast]
      exact h _ this
    have htail : ∀ p ∈ ((d1, v1) :: rest).dropLast, p.2 ≠ 0 := by
      intro p hp
      refine h p ?_
      simp [List.dropLast, hp]
    rw [calculate_exchange_rate_changes, changesClosedForm_cons_cons]
    rw [pydiv, if_neg hv0, calculate_exchange_rate_changes_eq ((d1, v1) :: rest) htail]
    simp [div_mul_eq_mul_div]

/-- C3: on a date-ordered series of length `n ≥ 1` whose values before the
last are all nonzero, both day-over-day change functions return the list of
exactly `n - 1` pairs whose `i`-th entry carries the date of observation
`i + 1` and the value `(v[i+1] - v[i]) / v[i] * 100`. -/
theorem claim_C3_day_over_day_changes (data : List (Date × ℚ))
    (_hlen : 1 ≤ data.length) (hnz : ∀ p ∈ data.dropLast, p.2 ≠ 0) :
    calculate_exchange_rate_changes data = .ok (changesClosedForm data) ∧
    calculate_stock_price_changes data = .ok (changesClosedForm data) ∧
    (changesClosedForm data).length = data.length - 1 := by
  refine ⟨calculate_exchange_rate_changes_eq data hnz, ?_, ?_⟩
  · rw [calculate_stock_eq_exchange]
    exact calculate_exchange_rate_changes_eq data hnz
  · simp [changesClosedForm]

/-- Witness for C3 at the spec's example series `[100, 101, 102]`: the changes
are `[1.0, 100/101]` (`100/101 ≈ 0.9901`). -/
theorem claim_C3_day_over_day_changes_witness :
    calculate_exchange_rate_changes [((1 : Date), (100 : ℚ)), (2, 101), (3, 102)] =
      .ok [(2, 1), (3, 100 / 101)] ∧
    calculate_stock_price_changes [((1 : Date), (100 : ℚ)), (2, 101), (3, 102)] =
      .ok [(2, 1), (3, 100 / 101)] := by
  have h := claim_C3_day_over_day_changes [((1 : Date), (100 : ℚ)), (2, 101), (3, 102)]
    (by decide) (by decide)
  exact ⟨h.1.trans (by norm_num [changesClosedForm, List.range_succ]),
    h.2.1.trans (by norm_num [changesClosedForm, List.range_succ])⟩

/-- The body of the max-|change| scan loop: keep `(some date, change)` when
`abs(change) > abs(max_change)`, else keep the accumulator
`(max_change_date, max_change)`. -/
def maxStep (acc : Option Date × ℚ) (p : Date × ℚ) : Option Date × ℚ :=
  if |p.2| > |acc.2| then (some p.1, p.2) else acc

/-- The loop of `metrics_calculation.find_max_exchange_rate_change_date`:
iterates over consecutive pairs, computing
`change = (data[i+1][3] - data[i][3]) * 100 / data[i][3]` (which raises on a
zero prior value) and updating `(max_change_date, max_change)` via `maxStep`. -/
def find_max_exchange_rate_change_date_aux :
    List (Date × ℚ) → Option Date × ℚ → Except String (Option Date × ℚ)
  | [], acc => .ok acc
  | [_], acc => .ok acc
  | (_, v0) :: (d1, v1) :: rest, acc =>
    match pydiv ((v1 - v0) * 100) v0 with
    | .error e => .error e
    | .ok change =>
      find_max_exchange_rate_change_date_aux ((d1, v1) :: rest) (maxStep acc (d1, change))

/-- Models `metrics_calculation.find_max_exchange_rate_change_date` on the
`(date, rate)` projection: the accumulator starts at `(None, 0)`. -/
def find_max_exchange_rate_change_date (data : List (Date × ℚ)) :
    Except String (Option Date × ℚ) :=
  find_max_exchange_rate_change_date_aux data (none, 0)

/-- The loop of `metrics_calculation.find_max_stock_change_date`, identical to
the exchange-rate one on the `(date, close)` projection. -/
def find_max_stock_change_date_aux :
    List (Date × ℚ) → Option Date × ℚ → Except String (Option Date × ℚ)
  | [], acc => .ok acc
  | [_], acc => .ok acc
  | (_, v0) :: (d1, v1) :: rest, acc =>
    match pydiv ((v1 - v0) * 100) v0 with
    | .error e => .error e
    | .ok change =>
      find_max_stock_change_date_aux ((d1, v1) :: rest) (maxStep acc (d1, change))

/-- Models `metrics_calculation.find_max_stock_change_date`. -/
def find_max_stock_change_date (data : List (Date × ℚ)) :
    Except String (Option Date × ℚ) :=
  find_max_stock_change_date_aux data (none, 0)

lemma find_max_stock_aux_eq_exchange :
    ∀ (data : List (Date × ℚ)) (acc : Option Date × ℚ),
      find_max_stock_change_date_aux data acc = find_max_exchange_rate_change_date_aux data acc
  | [], _ => rfl
  | [_], _ => rfl
  | (d0, v0) :: (d1, v1) :: rest, acc => by
    rw [find_max_stock_change_date_aux, find_max_exchange_rate_change_date_aux]
    cases pydiv ((v1 - v0) * 100) v0 with
    | error e => rfl
    | ok change => exact find_max_stock_aux_eq_exchange ((d1, v1) :: rest) _

lemma find_max_stock_eq_exchange (data : List (Date × ℚ)) :
    find_max_stock_change_date data = find_max_exchange_rate_change_date data :=
  find_max_stock_aux_eq_exchange data (none, 0)

lemma find_max_aux_eq_foldl :
    ∀ (data : List (Date × ℚ)) (acc : Option Date × ℚ) (cs : List (Date × ℚ)),
      calculate_exchange_rate_changes data = .ok cs →
      find_max_exchange_rate_change_date_aux data acc = .ok (cs.foldl maxStep acc)
  | [], acc, cs, h => by
    simp only [calculate_exchange_rate_changes, Except.ok.injEq] at h
    subst h; rfl
  | [a], acc, cs, h => by
    simp only [calculate_exchange_rate_changes, Except.ok.injEq] at h
    subst h; rfl
  | (d0, v0) :: (d1, v1) :: rest, acc, cs, h => by
    rw [calculate_exchange_rate_changes] at h
    rw [find_max_exchange_rate_change_date_aux]
    split at h
    next e heq => exact absurd h (by simp)
    next c heq =>
      split at h
      next e' heq' => exact absurd h (by simp)
      next cs' heq' =>
        simp only [Except.ok.injEq] at h
        subst h
        simp only [List.foldl_cons]
        exact find_max_aux_eq_foldl ((d1, v1) :: rest) (maxStep acc (d1, c)) cs' heq'

lemma foldl_maxStep_zero :
    ∀ (cs : List (Date × ℚ)) (acc : Option Date × ℚ), acc.2 = 0 → (∀ p ∈ cs, p.2 = 0) →
      cs.foldl maxStep acc = acc
  | [], _, _, _ => rfl
  | p :: rest, acc, hacc, h => by
    have hstep : maxStep acc p = acc := by
      have hcond : ¬(|p.2| > |acc.2|) := by
        rw [h p (by simp), hacc]
        simp
      rw [maxStep, if_neg hcond]
    rw [List.foldl_cons, hstep]
    exact foldl_maxStep_zero rest acc hacc fun q hq => h q (by simp [hq])

lemma foldl_maxStep_spec :
    ∀ (cs : List (Date × ℚ)) (acc : Option Date × ℚ),
      |acc.2| ≤ |(cs.foldl maxStep acc).2| ∧
      (∀ p ∈ cs, |p.2| ≤ |(cs.foldl maxStep acc).2|) ∧
      (cs.foldl maxStep acc = acc ∨ ∃ p ∈ cs, cs.foldl maxStep acc = (some p.1, p.2))
  | [], acc => ⟨le_refl _, by simp, Or.inl rfl⟩
  | p :: rest, acc => by
    simp only [List.foldl_cons]
    obtain ⟨h1, h2, h3⟩ := foldl_maxStep_spec rest (maxStep acc p)
    have hstep_le : |acc.2| ≤ |(maxStep acc p).2| := by
      rw [maxStep]; split
    
      next h => exact le_of_lt h
      next h => exact le_refl _
    have hp_le : |p.2| ≤ |(maxStep acc p).2| := by
      rw [maxStep]; split
      next h => exact le_refl _
      next h => exact le_of_not_lt h
    have hstep_cases : maxStep acc p = acc ∨ maxStep acc p = (some p.1, p.2) := by
      rw [maxStep]; split
      next h => exact Or.inr rfl
      next h => exact Or.inl rfl
    refine ⟨le_trans hstep_le h1, ?_, ?_⟩
    · intro q hq
      rcases List.mem_cons.1 hq with rfl | hq'
      · exact le_trans hp_le h1
      · exact h2 q hq'
    · rcases h3 with h3 | ⟨q, hq, h3⟩
      · rcases hstep_cases with hc | hc
        · exact Or.inl (h3.trans hc)
        · exact Or.inr ⟨p, by simp, h3.trans hc⟩
      · exact Or.inr ⟨q, by simp [hq], h3⟩

/-- C4 (amended): on a series with nonzero prior values the max-change scan
computes the change list, returns `(None, 0)` whenever every consecutive
change is `0` (in particular on empty and one-point series, whose change list
is empty), and otherwise returns `(some d, c)` for one of the change pairs
`(d, c)`, whose `|c|` bounds every change; the stock scan is the identical
computation. -/
theorem claim_C4_max_change_scan (data : List (Date × ℚ))
    (hnz : ∀ p ∈ data.dropLast, p.2 ≠ 0) :
    ∃ cs, calculate_exchange_rate_changes data = .ok cs ∧
      find_max_stock_change_date data = find_max_exchange_rate_change_date data ∧
      (data.length ≤ 1 → find_max_exchange_rate_change_date data = .ok (none, 0)) ∧
      ((∀ p ∈ cs, p.2 = 0) → find_max_exchange_rate_change_date data = .ok (none, 0)) ∧
      ((∃ p ∈ cs, p.2 ≠ 0) →
        ∃ d c, find_max_exchange_rate_change_date data = .ok (some d, c) ∧
          (d, c) ∈ cs ∧ ∀ p ∈ cs, |p.2| ≤ |c|) := by
  have hok := calculate_exchange_rate_changes_eq data hnz
  have heq := find_max_aux_eq_foldl data (none, 0) _ hok
  have hallzero : (∀ p ∈ changesClosedForm data, p.2 = 0) →
      find_max_exchange_rate_change_date data = .ok (none, 0) := by
    intro hall
    rw [find_max_exchange_rate_change_date, heq, foldl_maxStep_zero _ _ rfl hall]
  refine ⟨changesClosedForm data, hok, find_max_stock_eq_exchange data, ?_, hallzero, ?_⟩
  · intro hle
    refine hallzero ?_
    have : changesClosedForm data = [] := by
      unfold changesClosedForm
      rw [Nat.sub_eq_zero_of_le hle]
      rfl
    simp [this]
  · rintro ⟨q, hq, hql⟩
    obtain ⟨h1, h2, h3⟩ := foldl_maxStep_spec (changesClosedForm data) (none, 0)
    rcases h3 with h3 | ⟨p, hp, h3⟩
    · exfalso
      have hb := h2 q hq
      rw [h3] at hb
      simp only [abs_nonpos_iff] at hb
      exact hql (by simpa using hb)
    · refine ⟨p.1, p.2, ?_, by simpa using hp, fun p' hp' => ?_⟩
      · rw [find_max_exchange_rate_change_date, heq, h3]
      · have := h2 p' hp'
        rw [h3] at this
        exact this

/-- Counterexample for C4 as stated: on the constant two-point series
`[(d1, 100), (d2, 100)]` the scan returns `(None, 0)`, not the pair
`(d2, 0.0)` of the (unique) consecutive change of greatest absolute value. -/
theorem claim_C4_counterexample :
    find_max_exchange_rate_change_date [((1 : Date), (100 : ℚ)), (2, 100)] = .ok (none, 0) ∧
    (Except.ok ((none : Option Date), (0 : ℚ)) : Except String (Option Date × ℚ)) ≠
      .ok (some (2 : Date), (0 : ℚ)) := by
  constructor
  · rw [find_max_exchange_rate_change_date, find_max_exchange_rate_change_date_aux,
      pydiv, if_neg (by norm_num)]
    norm_num [maxStep, find_max_exchange_rate_change_date_aux]
  · simp

/-- Witness for C4 at the spec's example `[(d1, 100), (d2, 110), (d3, 105)]`:
the scan returns `(d2, 10.0)`, and the amended theorem instantiates there. -/
theorem claim_C4_max_change_scan_witness :
    (∃ cs, calculate_exchange_rate_changes
        [((1 : Date), (100 : ℚ)), (2, 110), (3, 105)] = .ok cs ∧
      find_max_stock_change_date [((1 : Date), (100 : ℚ)), (2, 110), (3, 105)] =
        find_max_exchange_rate_change_date [((1 : Date), (100 : ℚ)), (2, 110), (3, 105)] ∧
      (([((1 : Date), (100 : ℚ)), (2, 110), (3, 105)] : List (Date × ℚ)).length ≤ 1 →
        find_max_exchange_rate_change_date [((1 : Date), (100 : ℚ)), (2, 110), (3, 105)] =
          .ok (none, 0)) ∧
      ((∀ p ∈ cs, p.2 = 0) →
        find_max_exchange_rate_change_date [((1 : Date), (100 : ℚ)), (2, 110), (3, 105)] =
          .ok (none, 0)) ∧
      ((∃ p ∈ cs, p.2 ≠ 0) →
        ∃ d c, find_max_exchange_rate_change_date
            [((1 : Date), (100 : ℚ)), (2, 110), (3, 105)] = .ok (some d, c) ∧
          (d, c) ∈ cs ∧ ∀ p ∈ cs, |p.2| ≤ |c|)) ∧
    find_max_exchange_rate_change_date [((1 : Date), (100 : ℚ)), (2, 110), (3, 105)] =
      .ok (some 2, 10) := by
  refine ⟨claim_C4_max_change_scan _ (by decide), ?_⟩
  rw [find_max_exchange_rate_change_date, find_max_exchange_rate_change_date_aux,
    pydiv, if_neg (by norm_num)]
  norm_num [find_max_exchange_rate_change_date_aux, pydiv, maxStep]
  rw [abs_of_nonneg (by norm_num)]
  norm_num

/-- C8: percent-change division is unguarded: a zero observation followed by
another observation makes both the change computation and the max-change scan
raise `ZeroDivisionError` instead of returning a sentinel. -/
theorem claim_C8_division_by_zero :
    calculate_exchange_rate_changes [((1 : Date), (0 : ℚ)), (2, 5)] =
      .error "ZeroDivisionError" ∧
    find_max_exchange_rate_change_date [((1 : Date), (0 : ℚ)), (2, 5)] =
      .error "ZeroDivisionError" := by
  constructor
  · rw [calculate_exchange_rate_changes, pydiv, if_pos rfl]
  · rw [find_max_exchange_rate_change_date, find_max_exchange_rate_change_date_aux,
      pydiv, if_pos rfl]

/-- Models `sum_x2` / `sum_y2` of `perform_correlation_analysis`:
`sum(v ** 2 for v in vals)`. -/
def sum_sq (l : List ℚ) : ℚ := (l.map fun x => x ^ 2).sum

/-- A denominator part of the Pearson formula, `n * sum_v2 - sum_v ** 2`,
where `n = len(x_vals)` in the source (for both parts). -/
def den_part (n : ℕ) (l : List ℚ) : ℚ := n * sum_sq l - l.sum ^ 2

/-- The numerator of the Pearson formula,
`n * sum_xy - sum_x * sum_y` with `n = len(x_vals)` and
`sum_xy = sum(x * y for x, y in zip(x_vals, y_vals))`. -/
def corr_num (xs ys : List ℚ) : ℚ :=
  xs.length * (List.zipWith (· * ·) xs ys).sum - xs.sum * ys.sum

/-- Models `metrics_calculation.perform_correlation_analysis`: the sum-based Pearson
coefficient of the two change series (second components of the pairs), with
`denominator = (denominator_part1 * denominator_part2) ** 0.5` modelled as the
real square root, returning `0.0` when the denominator is zero. -/
noncomputable def perform_correlation_analysis
    (exchange_data stock_data : List (Date × ℚ)) : ℝ :=
  let x_vals := exchange_data.map Prod.snd
  let y_vals := stock_data.map Prod.snd
  let numerator := corr_num x_vals y_vals
  let denominator_part1 := den_part x_vals.length x_vals
  let denominator_part2 := den_part x_vals.length y_vals
  let denominator := Real.sqrt ((denominator_part1 * denominator_part2 : ℚ) : ℝ)
  if denominator = 0 then 0 else (numerator : ℝ) / denominator

/-- C1: whenever either sum-based denominator part vanishes (e.g. a constant
series, zero variance), the correlation is exactly `0.0`, with no division by
zero. -/
theorem claim_C1_correlation_zero_variance (ex st : List (Date × ℚ))
    (h : den_part (ex.map Prod.snd).length (ex.map Prod.snd) = 0 ∨
         den_part (ex.map Prod.snd).length (st.map Prod.snd) = 0) :
    perform_correlation_analysis ex st = 0 := by
  simp only [perform_correlation_analysis]
  have hz : ((den_part (ex.map Prod.snd).length (ex.map Prod.snd) *
      den_part (ex.map Prod.snd).length (st.map Prod.snd) : ℚ) : ℝ) = 0 := by
    rcases h with h | h <;> rw [h] <;> push_cast <;> ring
  rw [hz, Real.sqrt_zero, if_pos rfl]

/-- Witness for C1: a constant exchange series `[5, 5]` against `[1, 2]`
yields correlation `0.0`. -/
theorem claim_C1_correlation_zero_variance_witness :
    perform_correlation_analysis [((1 : Date), (5 : ℚ)), (2, 5)]
      [((1 : Date), (1 : ℚ)), (2, 2)] = 0 :=
  claim_C1_correlation_zero_variance _ _ (Or.inl (by norm_num [den_part, sum_sq]))

lemma sum_map_sub_sq (l : List ℚ) (a : ℚ) :
    (l.map fun x => (x - a) ^ 2).sum = sum_sq l - 2 * a * l.sum + l.length * a ^ 2 := by
  induction l with
  | nil => simp [sum_sq]
  | cons b t ih =>
    simp only [List.map_cons, List.sum_cons, List.length_cons, sum_sq] at ih ⊢
    rw [ih]
    push_cast
    ring

lemma den_part_cons (a : ℚ) (l : List ℚ) :
    den_part (a :: l).length (a :: l) =
      den_part l.length l + (l.map fun x => (x - a) ^ 2).sum := by
  simp only [den_part, sum_sq, List.length_cons, List.map_cons, List.sum_cons]
  rw [show (l.map fun x => (x - a) ^ 2).sum = sum_sq l - 2 * a * l.sum + l.length * a ^ 2
    from sum_map_sub_sq l a, sum_sq]
  push_cast
  ring

lemma den_part_nonneg (l : List ℚ) : 0 ≤ den_part l.length l := by
  induction l with
  | nil => simp [den_part, sum_sq]
  | cons a t ih =>
    rw [den_part_cons]
    have hs : 0 ≤ (t.map fun x => (x - a) ^ 2).sum := by
      refine List.sum_nonneg ?_
      intro x hx
      obtain ⟨y, -, rfl⟩ := List.mem_map.1 hx
      positivity
    linarith

lemma den_part_pos (l : List ℚ) (h : ∃ x ∈ l, ∃ y ∈ l, x ≠ y) :
    0 < den_part l.length l := by
  obtain ⟨x, hx, y, hy, hxy⟩ := h
  cases l with
  | nil => simp at hx
  | cons a t =>
    obtain ⟨z, hz, hza⟩ : ∃ z ∈ t, z ≠ a := by
      rcases List.mem_cons.1 hx with rfl | hx' <;> rcases List.mem_cons.1 hy with rfl | hy'
      · exact absurd rfl hxy
      · exact ⟨y, hy', fun hya => hxy hya.symm⟩
      · exact ⟨x, hx', hxy⟩
      · by_cases hxa : x = a
        · exact ⟨y, hy', fun hya => hxy (hya.symm ▸ hxa)⟩
        · exact ⟨x, hx', hxa⟩
    rw [den_part_cons]
    have h1 : (0 : ℚ) < (z - a) ^ 2 :=
      lt_of_le_of_ne (sq_nonneg _) (Ne.symm (pow_ne_zero 2 (sub_ne_zero.2 hza)))
    have h2 : (z - a) ^ 2 ≤ (t.map fun x => (x - a) ^ 2).sum := by
      refine List.single_le_sum ?_ _ (List.mem_map_of_mem _ hz)
      intro q hq
      obtain ⟨w, -, rfl⟩ := List.mem_map.1 hq
      positivity
    have h3 := den_part_nonneg t
    linarith

lemma zipWith_mul_self (l : List ℚ) : List.zipWith (· * ·) l l = l.map fun x => x ^ 2 := by
  induction l with
  | nil => rfl
  | cons a t ih => simp [ih, pow_two]

lemma corr_num_self (l : List ℚ) : corr_num l l = den_part l.length l := by
  rw [corr_num, zipWith_mul_self, den_part, sum_sq]
  ring

lemma sum_map_neg (l : List ℚ) : (l.map fun x => -x).sum = -l.sum := by
  induction l with
  | nil => simp
  | cons a t ih => simp only [List.map_cons, List.sum_cons, ih]; ring

lemma zipWith_mul_neg (l : List ℚ) :
    List.zipWith (· * ·) l (l.map fun x => -x) = l.map fun x => -(x ^ 2) := by
  induction l with
  | nil => rfl
  | cons a t ih => simp [ih, pow_two]

lemma sum_sq_neg (l : List ℚ) : sum_sq (l.map fun x => -x) = sum_sq l := by
  induction l with
  | nil => rfl
  | cons a t ih =>
    simp only [sum_sq, List.map_cons, List.sum_cons] at ih ⊢
    rw [ih, neg_sq]

lemma den_part_neg (n : ℕ) (l : List ℚ) :
    den_part n (l.map fun x => -x) = den_part n l := by
  simp only [den_part, sum_sq_neg, sum_map_neg]
  rw [neg_sq]

lemma corr_num_neg (l : List ℚ) :
    corr_num l (l.map fun x => -x) = -den_part l.length l := by
  simp only [corr_num, den_part, zipWith_mul_neg, sum_map_neg]
  rw [show (l.map fun x => -(x ^ 2)).sum = -(l.map fun x => x ^ 2).sum by
    rw [show (l.map fun x => -(x ^ 2)) = ((l.map fun x => x ^ 2).map fun y => -y) by
      simp [List.map_map, Function.comp_def], sum_map_neg]]
  rw [sum_sq]
  ring

/-- C2: for a non-constant series `s`, the correlation of `s` with itself is
`1.0`, and with any series whose values are the pointwise negations of `s` it
is `-1.0`. -/
theorem claim_C2_correlation_self_neg (s t : List (Date × ℚ))
    (hnc : ∃ p ∈ s, ∃ q ∈ s, p.2 ≠ q.2)
    (ht : t.map Prod.snd = (s.map Prod.snd).map fun x => -x) :
    perform_correlation_analysis s s = 1 ∧ perform_correlation_analysis s t = -1 := by
  have hQpos : 0 < den_part (s.map Prod.snd).length (s.map Prod.snd) := by
    refine den_part_pos _ ?_
    obtain ⟨p, hp, q, hq, h⟩ := hnc
    exact ⟨p.2, List.mem_map_of_mem _ hp, q.2, List.mem_map_of_mem _ hq, h⟩
  have hQne : ((den_part (s.map Prod.snd).length (s.map Prod.snd) : ℚ) : ℝ) ≠ 0 := by
    exact_mod_cast hQpos.ne'
  have hsqrt : Real.sqrt (((den_part (s.map Prod.snd).length (s.map Prod.snd) *
      den_part (s.map Prod.snd).length (s.map Prod.snd) : ℚ)) : ℝ) =
      ((den_part (s.map Prod.snd).length (s.map Prod.snd) : ℚ) : ℝ) := by
    push_cast
    exact Real.sqrt_mul_self (by exact_mod_cast hQpos.le)
  constructor
  · simp only [perform_correlation_analysis]
    rw [hsqrt, if_neg hQne, corr_num_self]
    exact div_self hQne
  · simp only [perform_correlation_analysis]
    rw [ht, den_part_neg, hsqrt, if_neg hQne, corr_num_neg]
    push_cast
    rw [neg_div]
    rw [div_self hQne]

/-- Witness for C2 at `s = [(1, 1), (2, 2)]` (non-constant) and its pointwise
negation `t = [(1, -1), (2, -2)]`. -/
theorem claim_C2_correlation_self_neg_witness :
    perform_correlation_analysis [((1 : Date), (1 : ℚ)), (2, 2)]
      [((1 : Date), (1 : ℚ)), (2, 2)] = 1 ∧
    perform_correlation_analysis [((1 : Date), (1 : ℚ)), (2, 2)]
      [((1 : Date), (-1 : ℚ)), (2, -2)] = -1 :=
  claim_C2_correlation_self_neg _ _ (by decide) (by norm_num)

/-- The loop of `download.download_exchange_rate_limit_25`: starting from the
parsed start date, each iteration issues one single-day API call for the 3
currency pairs (`download_exchange_rate_data(base, targets, d, d, ...)`,
3 records), advances the date by one day and adds 3 to the record counter
`i`, while `i + 3 < 25`.  The value is the list of calendar days fetched. -/
def download_exchange_rate_limit_25_loop (start_date : Int) (i : ℕ) : List Int :=
  if _h : i + 3 < 25 then
    start_date :: download_exchange_rate_limit_25_loop (start_date + 1) (i + 3)
  else []
termination_by 25 - i

/-- Models `download.download_exchange_rate_limit_25`: the counter starts at 0. -/
def download_exchange_rate_limit_25 (start_date : Int) : List Int :=
  download_exchange_rate_limit_25_loop start_date 0

/-- The loop of `download.download_stock_limit_25`: identical, one single-day
call for the 3 stock symbols (3 records) per iteration. -/
def download_stock_limit_25_loop (start_date : Int) (i : ℕ) : List Int :=
  if _h : i + 3 < 25 then
    start_date :: download_stock_limit_25_loop (start_date + 1) (i + 3)
  else []
termination_by 25 - i

/-- Models `download.download_stock_limit_25`. -/
def download_stock_limit_25 (start_date : Int) : List Int :=
  download_stock_limit_25_loop start_date 0

/-- Models `download.download_exchange_rate_months`: `while current_date <= end_date`
run one `download_exchange_rate_limit_25` batch at `current_date`, then
advance `current_date` by 8 days.  The value is the list of batches (each the
list of days its calls cover). -/
def download_exchange_rate_months (current_date end_date : Int) : List (List Int) :=
  if _h : current_date ≤ end_date then
    download_exchange_rate_limit_25 current_date ::
      download_exchange_rate_months (current_date + 8) end_date
  else []
termination_by (end_date + 1 - current_date).toNat
decreasing_by omega

/-- Models `download.download_stock_months`. -/
def download_stock_months (current_date end_date : Int) : List (List Int) :=
  if _h : current_date ≤ end_date then
    download_stock_limit_25 current_date ::
      download_stock_months (current_date + 8) end_date
  else []
termination_by (end_date + 1 - current_date).toNat
decreasing_by omega

/-- C5: a single batch issues exactly 8 single-day calls, covering the 8
consecutive calendar days from the start date (3 × 8 = 24 records, never more
than 8 days). -/
theorem claim_C5_single_batch (start_date : Int) :
    download_exchange_rate_limit_25 start_date =
      [start_date, start_date + 1, start_date + 2, start_date + 3,
       start_date + 4, start_date + 5, start_date + 6, start_date + 7] ∧
    download_stock_limit_25 start_date =
      [start_date, start_date + 1, start_date + 2, start_date + 3,
       start_date + 4, start_date + 5, start_date + 6, start_date + 7] ∧
    (download_exchange_rate_limit_25 start_date).length = 8 ∧
    (download_stock_limit_25 start_date).length = 8 ∧
    3 * (download_exchange_rate_limit_25 start_date).length ≤ 25 := by
  have hex : download_exchange_rate_limit_25 start_date =
      [start_date, start_date + 1, start_date + 2, start_date + 3,
       start_date + 4, start_date + 5, start_date + 6, start_date + 7] := by
    rw [download_exchange_rate_limit_25]
    simp [download_exchange_rate_limit_25_loop, List.cons.injEq]
    omega
  have hst : download_stock_limit_25 start_date =
      [start_date, start_date + 1, start_date + 2, start_date + 3,
       start_date + 4, start_date + 5, start_date + 6, start_date + 7] := by
    rw [download_stock_limit_25]
    simp [download_stock_limit_25_loop, List.cons.injEq]
    omega
  exact ⟨hex, hst, by rw [hex]; rfl, by rw [hst]; rfl, by rw [hex]; norm_num⟩

/-- Witness for C5 at start day 0. -/
theorem claim_C5_single_batch_witness :
    download_exchange_rate_limit_25 0 = [0, 1, 2, 3, 4, 5, 6, 7] ∧
    download_stock_limit_25 0 = [0, 1, 2, 3, 4, 5, 6, 7] := by
  have h := claim_C5_single_batch 0
  exact ⟨h.1.trans (by norm_num), h.2.1.trans (by norm_num)⟩

/-- C6: the multi-month backfill starts a batch at the start date and advances
by 8 days while still `≤` the end date; a 20-day span (end = start + 19)
yields exactly 3 batches, at start, start+8 and start+16. -/
theorem claim_C6_multi_month (start_date : Int) :
    download_exchange_rate_months start_date (start_date + 19) =
      [download_exchange_rate_limit_25 start_date,
       download_exchange_rate_limit_25 (start_date + 8),
       download_exchange_rate_limit_25 (start_date + 16)] ∧
    download_stock_months start_date (start_date + 19) =
      [download_stock_limit_25 start_date,
       download_stock_limit_25 (start_date + 8),
       download_stock_limit_25 (start_date + 16)] ∧
    (download_exchange_rate_months start_date (start_date + 19)).length = 3 ∧
    (download_stock_months start_date (start_date + 19)).length = 3 := by
  have hex : download_exchange_rate_months start_date (start_date + 19) =
      [download_exchange_rate_limit_25 start_date,
       download_exchange_rate_limit_25 (start_date + 8),
       download_exchange_rate_limit_25 (start_date + 16)] := by
    rw [download_exchange_rate_months, dif_pos (by omega)]
    rw [download_exchange_rate_months, dif_pos (by omega)]
    rw [download_exchange_rate_months, dif_pos (by omega)]
    rw [download_exchange_rate_months, dif_neg (by omega)]
    rw [show start_date + 8 + 8 = start_date + 16 by ring]
  have hst : download_stock_months start_date (start_date + 19) =
      [download_stock_limit_25 start_date,
       download_stock_limit_25 (start_date + 8),
       download_stock_limit_25 (start_date + 16)] := by
    rw [download_stock_months, dif_pos (by omega)]
    rw [download_stock_months, dif_pos (by omega)]
    rw [download_stock_months, dif_pos (by omega)]
    rw [download_stock_months, dif_neg (by omega)]
    rw [show start_date + 8 + 8 = start_date + 16 by ring]
  exact ⟨hex, hst, by rw [hex]; rfl, by rw [hst]; rfl⟩

/-- Witness for C6 at start day 0 (span day 0 through day 19). -/
theorem claim_C6_multi_month_witness :
    (download_exchange_rate_months 0 (0 + 19)).length = 3 ∧
    (download_stock_months 0 (0 + 19)).length = 3 :=
  ⟨(claim_C6_multi_month 0).2.2.1, (claim_C6_multi_month 0).2.2.2⟩

/-- A row of the `exchange_rate` fact table:
`(collect_date DATE, base_currency INTEGER, target_currency INTEGER,
rate REAL NOT NULL)`, PRIMARY KEY `(collect_date, base_currency,
target_currency)`. -/
structure ExchangeRateRow where
  collect_date : Date
  base_currency : Nat
  target_currency : Nat
  rate : ℚ
deriving DecidableEq

/-- A row of the `stock` fact table: `(collect_date DATE, symbol INTEGER,
open REAL, high REAL, low REAL, close REAL NOT NULL, volume REAL,
exchange TEXT, currency TEXT)`, PRIMARY KEY `(collect_date, symbol)`.
`symbol` is an `Option` because `store_stock_data_to_db` inserts the result
of `get_symbol_id` without a `None` check, and a SQLite rowid-table PRIMARY
KEY column accepts NULL unless declared NOT NULL (`open` is renamed
`open_price`, `open` being reserved in Lean). -/
structure StockRow where
  collect_date : Date
  symbol : Option Nat
  open_price : ℚ
  high : ℚ
  low : ℚ
  close : ℚ
  volume : ℚ
  exchange : String
  currency : String
deriving DecidableEq

/-- An input row for `store_exchange_rates_to_db`:
`(date_string, base_name, target_name, rate)`; the date string
(`'%Y-%m-%d'`, parsed by `strptime`) is modelled pre-parsed. -/
structure ExchangeRateInput where
  collect_date : Date
  base : String
  target : String
  rate : ℚ
deriving DecidableEq

/-- An input row for `store_stock_data_to_db`:
`(date_string, symbol_name, open, high, low, close, volume, exchange,
currency)`. -/
structure StockInput where
  collect_date : Date
  symbol : String
  open_price : ℚ
  high : ℚ
  low : ℚ
  close : ℚ
  volume : ℚ
  exchange : String
  currency : String
deriving DecidableEq

/-- The SQLite database state: the two dimension tables (`id`, `name`; `id`
is the PRIMARY KEY and `name` is UNIQUE) and the two fact tables. -/
structure DB where
  currency : List (Nat × String)
  symbol : List (Nat × String)
  exchange_rate : List ExchangeRateRow
  stock : List StockRow
deriving DecidableEq

/-- Models `database.get_currency_id`: `SELECT id FROM currency WHERE name = ?`,
`fetchone()` — the first matching row's id, else `None`. -/
def get_currency_id (db : DB) (currency : String) : Option Nat :=
  (db.currency.find? fun p => p.2 == currency).map Prod.fst

/-- Models `database.get_symbol_id`: `SELECT id FROM symbol WHERE name = ?`,
`fetchone()` — the first matching row's id, else `None`. -/
def get_symbol_id (db : DB) (symbol : String) : Option Nat :=
  (db.symbol.find? fun p => p.2 == symbol).map Prod.fst

/-- The `exchange_rate` PRIMARY KEY
`(collect_date, base_currency, target_currency)` already holds for some
stored row. -/
def exchangeKeyMem (tbl : List ExchangeRateRow) (r : ExchangeRateRow) : Bool :=
  tbl.any fun q => q.collect_date == r.collect_date &&
    q.base_currency == r.base_currency && q.target_currency == r.target_currency

/-- SQLite `INSERT OR IGNORE INTO exchange_rate`: ignored exactly when the
primary key already exists, otherwise the row is appended. -/
def insertOrIgnoreExchangeRate (tbl : List ExchangeRateRow) (r : ExchangeRateRow) :
    List ExchangeRateRow :=
  if exchangeKeyMem tbl r then tbl else tbl ++ [r]

/-- Conflict of a stored `stock` row with an incoming one on the PRIMARY KEY
`(collect_date, symbol)`.  Per SQLite semantics a NULL key value is distinct
from every value (including another NULL), so a row with a NULL symbol never
conflicts. -/
def stockKeyConflict (q r : StockRow) : Bool :=
  match q.symbol, r.symbol with
  | some a, some b => q.collect_date == r.collect_date && a == b
  | _, _ => false

/-- The `stock` PRIMARY KEY of `r` conflicts with some stored row. -/
def stockKeyMem (tbl : List StockRow) (r : StockRow) : Bool :=
  tbl.any fun q => stockKeyConflict q r

/-- SQLite `INSERT OR IGNORE INTO stock`. -/
def insertOrIgnoreStock (tbl : List StockRow) (r : StockRow) : List StockRow :=
  if stockKeyMem tbl r then tbl else tbl ++ [r]

/-- Models `database.store_exchange_rates_to_db`: for each input row look up the
base and target currency ids, raising (`.error`) when either is missing,
else `INSERT OR IGNORE` the fact row and continue.  The `.error` payload
carries the message and the table state at raise time: the rows already
inserted persist on the shared connection. -/
def store_exchange_rates_to_db :
    List ExchangeRateInput → DB → Except (String × DB) DB
  | [], db => .ok db
  | r :: rest, db =>
    match get_currency_id db r.base with
    | none =>
      .error ("Error(store_exchange_rates_to_db): base currency " ++ r.base ++
        " not found", db)
    | some base_currency_id =>
      match get_currency_id db r.target with
      | none =>
        .error ("Error(store_exchange_rates_to_db): target currency " ++ r.target ++
          " not found", db)
      | some target_currency_id =>
        store_exchange_rates_to_db rest
          { db with exchange_rate := (insertOrIgnoreExchangeRate db.exchange_rate
              ⟨r.collect_date, base_currency_id, target_currency_id, r.rate⟩) }

/-- Models `database.store_stock_data_to_db`: each input row is inserted with the
result of `get_symbol_id` directly — there is no `None` check, so an unknown
symbol name is stored as a NULL symbol id and no error is raised. -/
def store_stock_data_to_db : List StockInput → DB → DB
  | [], db => db
  | r :: rest, db =>
    store_stock_data_to_db rest
      { db with stock := (insertOrIgnoreStock db.stock
          ⟨r.collect_date, get_symbol_id db r.symbol, r.open_price, r.high, r.low,
           r.close, r.volume, r.exchange, r.currency⟩) }

/-- The table state an ingestion call leaves behind, whether it returns
normally or raises. -/
def runState (r : Except (String × DB) DB) : DB :=
  match r with
  | .ok db => db
  | .error (_, db) => db

/-- Reverse lookup used by the SQL join
`JOIN currency AS c ON c.id = ...`: the name stored under a dimension id
(ids are unique, being the PRIMARY KEY). -/
def currency_name_of_id (db : DB) (i : Nat) : Option String :=
  (db.currency.find? fun p => p.1 == i).map Prod.snd

/-- The contribution of one `exchange_rate` fact row to the result set of
`database.get_exchange_rate`'s SELECT: the row joins with both currency
dimension rows, survives the WHERE clause (`base.name = ?`,
`target.name = ?`, `collect_date IN (SELECT collect_date FROM stock)`) and
yields the tuple `(collect_date, base.name, target.name, rate)` — or nothing. -/
def exchangeJoinRow (db : DB) (base_currency target_currency : String)
    (r : ExchangeRateRow) : Option (Date × String × String × ℚ) :=
  match currency_name_of_id db r.base_currency,
      currency_name_of_id db r.target_currency with
  | some bn, some tn =>
    if bn == base_currency && tn == target_currency &&
        db.stock.any (fun s => s.collect_date == r.collect_date)
    then some (r.collect_date, bn, tn, r.rate) else none
  | _, _ => none

/-- Models `database.get_exchange_rate`: joins `exchange_rate` with the currency
dimension twice, keeps rows whose base/target names match and whose
`collect_date IN (SELECT collect_date FROM stock)`, and orders by
`collect_date ASC` (an insertion sort on the date). -/
def get_exchange_rate (db : DB) (base_currency target_currency : String) :
    List (Date × String × String × ℚ) :=
  List.insertionSort (fun a b => a.1 ≤ b.1)
    (db.exchange_rate.filterMap (exchangeJoinRow db base_currency target_currency))

lemma exchangeKeyMem_insert (tbl : List ExchangeRateRow) (r : ExchangeRateRow) :
    exchangeKeyMem (insertOrIgnoreExchangeRate tbl r) r = true := by
  rw [insertOrIgnoreExchangeRate]
  split
  next h => exact h
  next h =>
    rw [exchangeKeyMem, List.any_append]
    simp

lemma exchangeKeyMem_insert_mono (tbl : List ExchangeRateRow) (s r : ExchangeRateRow)
    (h : exchangeKeyMem tbl r = true) :
    exchangeKeyMem (insertOrIgnoreExchangeRate tbl s) r = true := by
  rw [insertOrIgnoreExchangeRate]
  split
  next hc => exact h
  next hc =>
    rw [exchangeKeyMem, List.any_append]
    rw [exchangeKeyMem] at h
    simp [h]

lemma store_ex_currency_eq :
    ∀ (rows : List ExchangeRateInput) (db : DB),
      (runState (store_exchange_rates_to_db rows db)).currency = db.currency
  | [], _ => rfl
  | r :: rest, db => by
    rw [store_exchange_rates_to_db]
    split
    · rfl
    · split
      · rfl
      · exact store_ex_currency_eq rest _

lemma store_ex_keyMem_mono :
    ∀ (rows : List ExchangeRateInput) (db : DB) (r : ExchangeRateRow),
      exchangeKeyMem db.exchange_rate r = true →
      exchangeKeyMem (runState (store_exchange_rates_to_db rows db)).exchange_rate r = true
  | [], _, _, h => h
  | row :: rest, db, r, h => by
    rw [store_exchange_rates_to_db]
    split
    · exact h
    · split
      · exact h
      · exact store_ex_keyMem_mono rest _ r (exchangeKeyMem_insert_mono _ _ _ h)

lemma store_ex_idem :
    ∀ (rows : List ExchangeRateInput) (db : DB),
      runState (store_exchange_rates_to_db rows
        (runState (store_exchange_rates_to_db rows db))) =
      runState (store_exchange_rates_to_db rows db)
  | [], _ => rfl
  | r :: rest, db => by
    cases hb : get_currency_id db r.base with
    | none =>
      simp only [store_exchange_rates_to_db, hb, runState]
    | some b =>
      cases ht : get_currency_id db r.target with
      | none =>
        simp only [store_exchange_rates_to_db, hb, ht, runState]
      | some t =>
        have hstep : store_exchange_rates_to_db (r :: rest) db =
            store_exchange_rates_to_db rest
              { db with exchange_rate := (insertOrIgnoreExchangeRate db.exchange_rate
                  ⟨r.collect_date, b, t, r.rate⟩) } := by
          rw [store_exchange_rates_to_db, hb, ht]
        rw [hstep]
        have hcur : (runState (store_exchange_rates_to_db rest
            { db with exchange_rate := (insertOrIgnoreExchangeRate db.exchange_rate
                ⟨r.collect_date, b, t, r.rate⟩) })).currency = db.currency :=
          store_ex_currency_eq rest _
        have hbS : get_currency_id (runState (store_exchange_rates_to_db rest
            { db with exchange_rate := (insertOrIgnoreExchangeRate db.exchange_rate
                ⟨r.collect_date, b, t, r.rate⟩) })) r.base = some b := by
          rw [get_currency_id, hcur]
          exact hb
        have htS : get_currency_id (runState (store_exchange_rates_to_db rest
            { db with exchange_rate := (insertOrIgnoreExchangeRate db.exchange_rate
                ⟨r.collect_date, b, t, r.rate⟩) })) r.target = some t := by
          rw [get_currency_id, hcur]
          exact ht
        rw [store_exchange_rates_to_db, hbS, htS]
        dsimp only
        have hkey : exchangeKeyMem (runState (store_exchange_rates_to_db rest
            { db with exchange_rate := (insertOrIgnoreExchangeRate db.exchange_rate
                ⟨r.collect_date, b, t, r.rate⟩) })).exchange_rate
            ⟨r.collect_date, b, t, r.rate⟩ :=
          store_ex_keyMem_mono rest _ _ (exchangeKeyMem_insert db.exchange_rate _)
        rw [show insertOrIgnoreExchangeRate (runState (store_exchange_rates_to_db rest
            { db with exchange_rate := (insertOrIgnoreExchangeRate db.exchange_rate
                ⟨r.collect_date, b, t, r.rate⟩) })).exchange_rate
            ⟨r.collect_date, b, t, r.rate⟩ =
            (runState (store_exchange_rates_to_db rest
            { db with exchange_rate := (insertOrIgnoreExchangeRate db.exchange_rate
                ⟨r.collect_date, b, t, r.rate⟩) })).exchange_rate from by
          rw [insertOrIgnoreExchangeRate, if_pos hkey]]
        exact store_ex_idem rest _

lemma stockKeyMem_insert (tbl : List StockRow) (r : StockRow) (a : Nat)
    (h : r.symbol = some a) :
    stockKeyMem (insertOrIgnoreStock tbl r) r = true := by
  rw [insertOrIgnoreStock]
  split
  next hc => exact hc
  next hc =>
    rw [stockKeyMem, List.any_append]
    have hself : stockKeyConflict r r = true := by
      rw [stockKeyConflict, h]
      simp
    simp [hself]

lemma stockKeyMem_insert_mono (tbl : List StockRow) (s r : StockRow)
    (h : stockKeyMem tbl r = true) :
    stockKeyMem (insertOrIgnoreStock tbl s) r = true := by
  rw [insertOrIgnoreStock]
  split
  next hc => exact h
  next hc =>
    rw [stockKeyMem, List.any_append]
    rw [stockKeyMem] at h
    simp [h]

lemma store_stock_symbol_eq :
    ∀ (rows : List StockInput) (db : DB),
      (store_stock_data_to_db rows db).symbol = db.symbol
  | [], _ => rfl
  | _ :: rest, _ => store_stock_symbol_eq rest _

lemma store_stock_keyMem_mono :
    ∀ (rows : List StockInput) (db : DB) (r : StockRow),
      stockKeyMem db.stock r = true →
      stockKeyMem (store_stock_data_to_db rows db).stock r = true
  | [], _, _, h => h
  | _ :: rest, _, r, h =>
    store_stock_keyMem_mono rest _ r (stockKeyMem_insert_mono _ _ _ h)

lemma store_stock_idem :
    ∀ (rows : List StockInput) (db : DB),
      (∀ r ∈ rows, get_symbol_id db r.symbol ≠ none) →
      store_stock_data_to_db rows (store_stock_data_to_db rows db) =
        store_stock_data_to_db rows db
  | [], _, _ => rfl
  | r :: rest, db, h => by
    obtain ⟨a, ha⟩ : ∃ a, get_symbol_id db r.symbol = some a := by
      cases hg : get_symbol_id db r.symbol with
      | none => exact absurd hg (h r (by simp))
      | some a => exact ⟨a, rfl⟩
    have hstep : store_stock_data_to_db (r :: rest) db =
        store_stock_data_to_db rest
          { db with stock := (insertOrIgnoreStock db.stock
              ⟨r.collect_date, get_symbol_id db r.symbol, r.open_price, r.high, r.low,
               r.close, r.volume, r.exchange, r.currency⟩) } := rfl
    rw [hstep]
    have hsym : (store_stock_data_to_db rest
        { db with stock := (insertOrIgnoreStock db.stock
            ⟨r.collect_date, get_symbol_id db r.symbol, r.open_price, r.high, r.low,
             r.close, r.volume, r.exchange, r.currency⟩) }).symbol = db.symbol :=
      store_stock_symbol_eq rest _
    have hidS : get_symbol_id (store_stock_data_to_db rest
        { db with stock := (insertOrIgnoreStock db.stock
            ⟨r.collect_date, get_symbol_id db r.symbol, r.open_price, r.high, r.low,
             r.close, r.volume, r.exchange, r.currency⟩) }) r.symbol =
        get_symbol_id db r.symbol := by
      rw [get_symbol_id, hsym]
      rfl
    have hkey : stockKeyMem (store_stock_data_to_db rest
        { db with stock := (insertOrIgnoreStock db.stock
            ⟨r.collect_date, get_symbol_id db r.symbol, r.open_price, r.high, r.low,
             r.close, r.volume, r.exchange, r.currency⟩) }).stock
        ⟨r.collect_date, get_symbol_id db r.symbol, r.open_price, r.high, r.low,
         r.close, r.volume, r.exchange, r.currency⟩ := by
      refine store_stock_keyMem_mono rest _ _ ?_
      exact stockKeyMem_insert db.stock _ a ha
    rw [store_stock_data_to_db, hidS]
    rw [show insertOrIgnoreStock (store_stock_data_to_db rest
        { db with stock := (insertOrIgnoreStock db.stock
            ⟨r.collect_date, get_symbol_id db r.symbol, r.open_price, r.high, r.low,
             r.close, r.volume, r.exchange, r.currency⟩) }).stock
        ⟨r.collect_date, get_symbol_id db r.symbol, r.open_price, r.high, r.low,
         r.close, r.volume, r.exchange, r.currency⟩ =
        (store_stock_data_to_db rest
        { db with stock := (insertOrIgnoreStock db.stock
            ⟨r.collect_date, get_symbol_id db r.symbol, r.open_price, r.high, r.low,
             r.close, r.volume, r.exchange, r.currency⟩) }).stock from by
      rw [insertOrIgnoreStock, if_pos hkey]]
    exact store_stock_idem rest _ fun r' hr' => h r' (by simp [hr'])

/-- C7 (amended): re-running `store_exchange_rates_to_db` with identical rows
leaves the table contents unchanged, unconditionally (also when the run
aborts on a missing currency); re-running `store_stock_data_to_db` leaves the
contents unchanged provided every row's symbol name resolves in the dimension
table (an unresolved symbol is stored as a NULL key, which SQLite re-inserts,
see the counterexample); and an `INSERT OR IGNORE` whose key is already
present is a no-op that never overwrites the stored row. -/
theorem claim_C7_ingestion_idempotent :
    (∀ (db : DB) (rows : List ExchangeRateInput),
      runState (store_exchange_rates_to_db rows
        (runState (store_exchange_rates_to_db rows db))) =
      runState (store_exchange_rates_to_db rows db)) ∧
    (∀ (db : DB) (rows : List StockInput),
      (∀ r ∈ rows, get_symbol_id db r.symbol ≠ none) →
      store_stock_data_to_db rows (store_stock_data_to_db rows db) =
        store_stock_data_to_db rows db) ∧
    (∀ (tbl : List ExchangeRateRow) (r : ExchangeRateRow),
      exchangeKeyMem tbl r = true → insertOrIgnoreExchangeRate tbl r = tbl) ∧
    (∀ (tbl : List StockRow) (r : StockRow),
      stockKeyMem tbl r = true → insertOrIgnoreStock tbl r = tbl) :=
  ⟨fun db rows => store_ex_idem rows db,
   fun db rows h => store_stock_idem rows db h,
   fun tbl r h => by rw [insertOrIgnoreExchangeRate, if_pos h],
   fun tbl r h => by rw [insertOrIgnoreStock, if_pos h]⟩

/-- Counterexample for C7 as stated ("for every row list"): a stock row whose
symbol is absent from the dimension table is stored with a NULL symbol id,
and SQLite's `INSERT OR IGNORE` re-inserts a NULL-keyed row, so a second
identical run grows the table from 1 row to 2. -/
theorem claim_C7_counterexample :
    (store_stock_data_to_db [⟨5, "ZZZZ", 1, 2, 3, 4, 5, "NASDAQ", "USD"⟩]
      ⟨[(0, "USD")], [(0, "AAPL")], [], []⟩).stock.length = 1 ∧
    (store_stock_data_to_db [⟨5, "ZZZZ", 1, 2, 3, 4, 5, "NASDAQ", "USD"⟩]
      (store_stock_data_to_db [⟨5, "ZZZZ", 1, 2, 3, 4, 5, "NASDAQ", "USD"⟩]
        ⟨[(0, "USD")], [(0, "AAPL")], [], []⟩)).stock.length = 2 := by
  constructor <;> rfl

/-- Witness for C7 at a concrete database: two exchange-rate rows stored
twice, and one resolving stock row stored twice. -/
theorem claim_C7_ingestion_idempotent_witness :
    runState (store_exchange_rates_to_db [⟨3, "USD", "CNY", 7⟩]
      (runState (store_exchange_rates_to_db [⟨3, "USD", "CNY", 7⟩]
        ⟨[(0, "USD"), (1, "CNY")], [(0, "AAPL")], [], []⟩))) =
    runState (store_exchange_rates_to_db [⟨3, "USD", "CNY", 7⟩]
      ⟨[(0, "USD"), (1, "CNY")], [(0, "AAPL")], [], []⟩) ∧
    store_stock_data_to_db [⟨3, "AAPL", 1, 2, 3, 4, 5, "NASDAQ", "USD"⟩]
      (store_stock_data_to_db [⟨3, "AAPL", 1, 2, 3, 4, 5, "NASDAQ", "USD"⟩]
        ⟨[(0, "USD"), (1, "CNY")], [(0, "AAPL")], [], []⟩) =
    store_stock_data_to_db [⟨3, "AAPL", 1, 2, 3, 4, 5, "NASDAQ", "USD"⟩]
      ⟨[(0, "USD"), (1, "CNY")], [(0, "AAPL")], [], []⟩ :=
  ⟨claim_C7_ingestion_idempotent.1 _ _,
   claim_C7_ingestion_idempotent.2.1 _ _ (by decide)⟩

/-- An ingestion call raised (the Python loop was aborted by an exception). -/
def raisesError (r : Except (String × DB) DB) : Bool :=
  match r with
  | .ok _ => false
  | .error _ => true

lemma store_ex_abort :
    ∀ (good : List ExchangeRateInput) (db : DB) (r : ExchangeRateInput)
      (rest : List ExchangeRateInput),
      (∀ g ∈ good, get_currency_id db g.base ≠ none ∧ get_currency_id db g.target ≠ none) →
      (get_currency_id db r.base = none ∨ get_currency_id db r.target = none) →
      ∃ db1, store_exchange_rates_to_db good db = .ok db1 ∧
        raisesError (store_exchange_rates_to_db (good ++ r :: rest) db) = true ∧
        runState (store_exchange_rates_to_db (good ++ r :: rest) db) = db1
  | [], db, r, rest, _, hbad => by
    refine ⟨db, rfl, ?_⟩
    rcases hbad with hb | ht
    · rw [List.nil_append, store_exchange_rates_to_db, hb]
      exact ⟨rfl, rfl⟩
    · cases hb2 : get_currency_id db r.base with
      | none =>
        rw [List.nil_append, store_exchange_rates_to_db, hb2]
        exact ⟨rfl, rfl⟩
      | some b =>
        rw [List.nil_append, store_exchange_rates_to_db, hb2, ht]
        exact ⟨rfl, rfl⟩
  | g :: gs, db, r, rest, hgood, hbad => by
    obtain ⟨hgb, hgt⟩ := hgood g (by simp)
    obtain ⟨b, hb⟩ : ∃ b, get_currency_id db g.base = some b := by
      cases h : get_currency_id db g.base with
      | none => exact absurd h hgb
      | some b => exact ⟨b, rfl⟩
    obtain ⟨t, ht⟩ : ∃ t, get_currency_id db g.target = some t := by
      cases h : get_currency_id db g.target with
      | none => exact absurd h hgt
      | some t => exact ⟨t, rfl⟩
    have hstep1 : store_exchange_rates_to_db (g :: gs) db =
        store_exchange_rates_to_db gs
          { db with exchange_rate := (insertOrIgnoreExchangeRate db.exchange_rate
              ⟨g.collect_date, b, t, g.rate⟩) } := by
      rw [store_exchange_rates_to_db, hb, ht]
    have hstep2 : store_exchange_rates_to_db ((g :: gs) ++ r :: rest) db =
        store_exchange_rates_to_db (gs ++ r :: rest)
          { db with exchange_rate := (insertOrIgnoreExchangeRate db.exchange_rate
              ⟨g.collect_date, b, t, g.rate⟩) } := by
      rw [List.cons_append, store_exchange_rates_to_db, hb, ht]
    rw [hstep1, hstep2]
    exact store_ex_abort gs _ r rest (fun g' hg' => hgood g' (by simp [hg'])) hbad

lemma stockKeyMem_none (tbl : List StockRow) (r : StockRow) (h : r.symbol = none) :
    stockKeyMem tbl r = false := by
  rw [stockKeyMem]
  simp only [List.any_eq_false]
  intro q _
  rw [stockKeyConflict, h]
  cases q.symbol <;> simp

/-- C9 (amended): `store_exchange_rates_to_db` raises a hard error aborting
the insertion loop as soon as it reaches a row whose base or target currency
name is missing from the dimension table — the rows before it are stored, the
offending row and everything after it are not; `store_stock_data_to_db`, by
contrast, performs no such check: a row with an unknown symbol name is
inserted with a NULL symbol id and no error is raised. -/
theorem claim_C9_dimension_lookup_errors :
    (∀ (db : DB) (good : List ExchangeRateInput) (r : ExchangeRateInput)
        (rest : List ExchangeRateInput),
      (∀ g ∈ good, get_currency_id db g.base ≠ none ∧
        get_currency_id db g.target ≠ none) →
      (get_currency_id db r.base = none ∨ get_currency_id db r.target = none) →
      ∃ db1, store_exchange_rates_to_db good db = .ok db1 ∧
        raisesError (store_exchange_rates_to_db (good ++ r :: rest) db) = true ∧
        runState (store_exchange_rates_to_db (good ++ r :: rest) db) = db1) ∧
    (∀ (db : DB) (r : StockInput), get_symbol_id db r.symbol = none →
      store_stock_data_to_db [r] db =
        { db with stock := (db.stock ++
            [⟨r.collect_date, none, r.open_price, r.high, r.low, r.close, r.volume,
              r.exchange, r.currency⟩]) }) := by
  constructor
  · exact fun db good r rest h1 h2 => store_ex_abort good db r rest h1 h2
  · intro db r h
    calc store_stock_data_to_db [r] db
        = { db with stock := (insertOrIgnoreStock db.stock
            ⟨r.collect_date, get_symbol_id db r.symbol, r.open_price, r.high, r.low,
             r.close, r.volume, r.exchange, r.currency⟩) } := rfl
      _ = { db with stock := (db.stock ++
            [⟨r.collect_date, none, r.open_price, r.high, r.low, r.close, r.volume,
              r.exchange, r.currency⟩]) } := by
          rw [h, insertOrIgnoreStock, stockKeyMem_none _ _ rfl]
          rfl

/-- Counterexample for C9 as stated: with symbol dimension `[(0, "AAPL")]`,
storing a row for the unknown symbol `"ZZZZ"` raises nothing and inserts the
row with a NULL symbol id. -/
theorem claim_C9_counterexample :
    get_symbol_id ⟨[(0, "USD")], [(0, "AAPL")], [], []⟩ "ZZZZ" = none ∧
    store_stock_data_to_db [⟨5, "ZZZZ", 1, 2, 3, 4, 5, "NASDAQ", "USD"⟩]
      ⟨[(0, "USD")], [(0, "AAPL")], [], []⟩ =
      ⟨[(0, "USD")], [(0, "AAPL")], [],
       [⟨5, none, 1, 2, 3, 4, 5, "NASDAQ", "USD"⟩]⟩ :=
  ⟨rfl, rfl⟩

/-- Witness for C9: a store of `USD → EUR` with `EUR` absent from the
dimension table raises and leaves the database unchanged, while the stock
store of an unknown symbol inserts a NULL-keyed row. -/
theorem claim_C9_dimension_lookup_errors_witness :
    (∃ db1, store_exchange_rates_to_db []
        ⟨[(0, "USD")], [(0, "AAPL")], [], []⟩ = .ok db1 ∧
      raisesError (store_exchange_rates_to_db ([] ++ ⟨3, "USD", "EUR", 2⟩ :: [])
        ⟨[(0, "USD")], [(0, "AAPL")], [], []⟩) = true ∧
      runState (store_exchange_rates_to_db ([] ++ ⟨3, "USD", "EUR", 2⟩ :: [])
        ⟨[(0, "USD")], [(0, "AAPL")], [], []⟩) = db1) ∧
    store_stock_data_to_db [⟨5, "ZZZZ", 1, 2, 3, 4, 5, "NASDAQ", "USD"⟩]
      ⟨[(0, "USD")], [(0, "AAPL")], [], []⟩ =
      { (⟨[(0, "USD")], [(0, "AAPL")], [], []⟩ : DB) with
        stock := (([] : List StockRow) ++
          [⟨5, none, 1, 2, 3, 4, 5, "NASDAQ", "USD"⟩]) } :=
  ⟨claim_C9_dimension_lookup_errors.1 _ [] _ [] (by simp) (Or.inr rfl),
   claim_C9_dimension_lookup_errors.2 _ _ rfl⟩

lemma exchangeJoinRow_eq_some (db : DB) (base target : String) (r : ExchangeRateRow)
    (q : Date × String × String × ℚ) :
    exchangeJoinRow db base target r = some q ↔
      currency_name_of_id db r.base_currency = some base ∧
      currency_name_of_id db r.target_currency = some target ∧
      db.stock.any (fun s => s.collect_date == r.collect_date) = true ∧
      q = (r.collect_date, base, target, r.rate) := by
  constructor
  · intro h
    unfold exchangeJoinRow at h
    split at h
    next bn tn hbn htn =>
      split at h
      next hcond =>
        simp only [Bool.and_eq_true, beq_iff_eq] at hcond
        obtain ⟨⟨hbase, htarget⟩, hstock⟩ := hcond
        subst hbase
        subst htarget
        simp only [Option.some.injEq] at h
        exact ⟨hbn, htn, hstock, h.symm⟩
      next hcond => exact absurd h (by simp)
    next => exact absurd h (by simp)
  · rintro ⟨h1, h2, h3, rfl⟩
    unfold exchangeJoinRow
    rw [h1, h2]
    simp [h3]

/-- C10: `get_exchange_rate` returns only rows of the requested pair whose
`collect_date` also occurs in the `stock` table (rates on dates with no
stored stock data are dropped), the result is sorted by date ascending, and
every matching stored rate on a stock date does appear. -/
theorem claim_C10_exchange_query_alignment (db : DB) (base target : String) :
    (∀ q ∈ get_exchange_rate db base target,
      q.2.1 = base ∧ q.2.2.1 = target ∧
      db.stock.any (fun s => s.collect_date == q.1) = true) ∧
    List.Sorted (fun a b => a.1 ≤ b.1) (get_exchange_rate db base target) ∧
    (∀ r ∈ db.exchange_rate,
      currency_name_of_id db r.base_currency = some base →
      currency_name_of_id db r.target_currency = some target →
      db.stock.any (fun s => s.collect_date == r.collect_date) = true →
      (r.collect_date, base, target, r.rate) ∈ get_exchange_rate db base target) := by
  have hperm : List.Perm (get_exchange_rate db base target)
      (db.exchange_rate.filterMap (exchangeJoinRow db base target)) :=
    List.perm_insertionSort _ _
  refine ⟨?_, ?_, ?_⟩
  · intro q hq
    have hq' : q ∈ db.exchange_rate.filterMap (exchangeJoinRow db base target) :=
      hperm.subset hq
    obtain ⟨r, -, hf⟩ := List.mem_filterMap.1 hq'
    obtain ⟨-, -, hstock, rfl⟩ := (exchangeJoinRow_eq_some db base target r q).1 hf
    exact ⟨rfl, rfl, hstock⟩
  · haveI : IsTotal (Date × String × String × ℚ) (fun a b => a.1 ≤ b.1) :=
      ⟨fun a b => le_total a.1 b.1⟩
    haveI : IsTrans (Date × String × String × ℚ) (fun a b => a.1 ≤ b.1) :=
      ⟨fun _ _ _ hab hbc => le_trans hab hbc⟩
    exact List.sorted_insertionSort _ _
  · intro r hr h1 h2 h3
    refine hperm.mem_iff.2 ?_
    exact List.mem_filterMap.2
      ⟨r, hr, (exchangeJoinRow_eq_some db base target r _).2 ⟨h1, h2, h3, rfl⟩⟩

/-- Witness for C10 at a two-row database in which only the rate dated 2 has
matching stock data. -/
theorem claim_C10_exchange_query_alignment_witness :
    (∀ q ∈ get_exchange_rate
        ⟨[(0, "USD"), (1, "CNY")], [(0, "AAPL")],
         [⟨1, 0, 1, 7⟩, ⟨2, 0, 1, 8⟩],
         [⟨2, some 0, 1, 1, 1, 1, 1, "NASDAQ", "USD"⟩]⟩ "USD" "CNY",
      q.2.1 = "USD" ∧ q.2.2.1 = "CNY" ∧
      (⟨[(0, "USD"), (1, "CNY")], [(0, "AAPL")],
        [⟨1, 0, 1, 7⟩, ⟨2, 0, 1, 8⟩],
        [⟨2, some 0, 1, 1, 1, 1, 1, "NASDAQ", "USD"⟩]⟩ : DB).stock.any
        (fun s => s.collect_date == q.1) = true) ∧
    List.Sorted (fun a b => a.1 ≤ b.1)
      (get_exchange_rate
        ⟨[(0, "USD"), (1, "CNY")], [(0, "AAPL")],
         [⟨1, 0, 1, 7⟩, ⟨2, 0, 1, 8⟩],
         [⟨2, some 0, 1, 1, 1, 1, 1, "NASDAQ", "USD"⟩]⟩ "USD" "CNY") :=
  ⟨(claim_C10_exchange_query_alignment _ "USD" "CNY").1,
   (claim_C10_exchange_query_alignment _ "USD" "CNY").2.1⟩
